import Mathlib

/-!
Verification of the flowmate execution-orchestration core against its
natural-language specification.  The TypeScript sources are shallowly
embedded: JavaScript numbers are modelled as rationals, JS strings as
Lean strings (or lists of characters for the line-oriented transport),
JSON values as an explicit AST, and the event-driven handlers of the
orchestrator as explicit state-transition functions folded over event
lists.  The opaque runtime pieces (JSON.parse of a raw line, the stderr
byte stream) are passed in as parameters where a claim needs them.
-/

namespace Flowmate

/-! ## JSON values (model of the runtime values produced by JSON.parse) -/

/-- A JSON value, as produced by the JavaScript runtime parser.  Numbers are
modelled as rationals. -/
inductive Json where
  | null : Json
  | bool (b : Bool) : Json
  | num (q : ℚ) : Json
  | str (s : String) : Json
  | arr (elems : List Json) : Json
  | obj (fields : List (String × Json)) : Json
deriving Repr

/-- JavaScript truthiness of a JSON value (`!v` in the source negates this).
Objects and arrays are always truthy; `null`, `false`, `0` and `""` are falsy. -/
def jsTruthy : Json → Bool
  | .null => false
  | .bool b => b
  | .num q => !(q == 0)
  | .str s => !(s == "")
  | .arr _ => true
  | .obj _ => true

/-- Whether `typeof v === "object"` holds in JavaScript: true for objects,
arrays and (a well-known quirk) `null`. -/
def typeofIsObject : Json → Bool
  | .null => true
  | .arr _ => true
  | .obj _ => true
  | _ => false

/-- Property read `v[k]`: `none` models the `undefined` result. -/
def getField (j : Json) (k : String) : Option Json :=
  match j with
  | .obj fields => fields.lookup k
  | _ => none

/-- The JavaScript `k in v` test (only ever reaches objects in the source). -/
def hasField (j : Json) (k : String) : Bool :=
  match j with
  | .obj fields => fields.any (fun f => f.1 == k)
  | _ => false

/-- Check `typeof v[k] === "string"`. -/
def fieldIsString (j : Json) (k : String) : Bool :=
  match getField j k with
  | some (.str _) => true
  | _ => false

/-- Check `typeof v[k] === "number"`. -/
def fieldIsNumber (j : Json) (k : String) : Bool :=
  match getField j k with
  | some (.num _) => true
  | _ => false

/-! ## shared/ipc.ts -/

/-- Valid IPC message type discriminants (`IPC_TYPES` in the source; the
`Set.has` lookup on a non-string value is always false). -/
def IPC_TYPES : List String := ["progress", "result", "error"]

/-- The guard `!msg.tokensUsed || typeof msg.tokensUsed !== "object"` from
`isValidIpcMessage`, as the positive condition: the field exists, is truthy
and has typeof object.  Nothing inside the token-usage object is inspected. -/
def tokensUsedOk (j : Json) : Bool :=
  match getField j "tokensUsed" with
  | none => false
  | some t => jsTruthy t && typeofIsObject t

/-- Runtime structural check `isValidIpcMessage` from shared/ipc.ts:
the value must be truthy, an object, carry a known `type` discriminant,
and have the per-kind required fields (`progress`: string text; `result`
and `error`: numeric costUsd and durationMs plus a token-usage object,
then a string text resp. message). -/
def isValidIpcMessage (j : Json) : Bool :=
  if !jsTruthy j || !typeofIsObject j || !hasField j "type" then false
  else
    match getField j "type" with
    | some (.str "progress") => fieldIsString j "text"
    | some (.str "result") =>
        fieldIsNumber j "costUsd" && fieldIsNumber j "durationMs" &&
        tokensUsedOk j && fieldIsString j "text"
    | some (.str "error") =>
        fieldIsNumber j "costUsd" && fieldIsNumber j "durationMs" &&
        tokensUsedOk j && fieldIsString j "message"
    | _ => false

/-- Function `parseIpcLine` from shared/ipc.ts, after the raw-text stage: the
argument is the outcome of trimming and `JSON.parse` (`none` models an
empty line or a JSON syntax error, both of which return null).  A parsed
value is returned exactly when it passes the structural check. -/
def parseIpcJson (parsed : Option Json) : Option Json :=
  match parsed with
  | none => none
  | some j => if isValidIpcMessage j then some j else none

/-- Token consumption breakdown (`TokenUsage` in shared/ipc.ts). -/
structure TokenUsage where
  input : ℚ
  output : ℚ
  cacheRead : ℚ
  cacheWrite : ℚ
deriving DecidableEq, Repr

/-- The discriminated union `IpcMessage` from shared/ipc.ts. -/
inductive IpcMessage where
  | progress (text : String) (timestamp : String) : IpcMessage
  | result (text : String) (costUsd : ℚ) (tokensUsed : TokenUsage)
      (durationMs : ℚ) (numTurns : ℚ) : IpcMessage
  | error (message : String) (costUsd : ℚ) (tokensUsed : TokenUsage)
      (durationMs : ℚ) (numTurns : ℚ) : IpcMessage
deriving DecidableEq, Repr

/-- JSON form of a token-usage record, with `JSON.stringify` field order. -/
def tokenUsageJson (t : TokenUsage) : Json :=
  .obj [("input", .num t.input), ("output", .num t.output),
        ("cacheRead", .num t.cacheRead), ("cacheWrite", .num t.cacheWrite)]

/-- Function `serializeIpc` from shared/ipc.ts at the level of JSON values: the
message is a plain record, so `JSON.stringify` encodes exactly this object
(insertion order of the interface fields) on a single line. -/
def serializeIpc : IpcMessage → Json
  | .progress text timestamp =>
      .obj [("type", .str "progress"), ("text", .str text),
            ("timestamp", .str timestamp)]
  | .result text costUsd tokensUsed durationMs numTurns =>
      .obj [("type", .str "result"), ("text", .str text),
            ("costUsd", .num costUsd), ("tokensUsed", tokenUsageJson tokensUsed),
            ("durationMs", .num durationMs), ("numTurns", .num numTurns)]
  | .error message costUsd tokensUsed durationMs numTurns =>
      .obj [("type", .str "error"), ("message", .str message),
            ("costUsd", .num costUsd), ("tokensUsed", tokenUsageJson tokensUsed),
            ("durationMs", .num durationMs), ("numTurns", .num numTurns)]

/-- Reading a validated IPC object back into the typed message (the source
casts the parsed object; deep equality of that object with the original
message is equality after decoding its fields). -/
def decodeIpc (j : Json) : Option IpcMessage :=
  match getField j "type" with
  | some (.str "progress") =>
      match getField j "text", getField j "timestamp" with
      | some (.str text), some (.str timestamp) => some (.progress text timestamp)
      | _, _ => none
  | some (.str "result") =>
      match getField j "text", getField j "costUsd", getField j "tokensUsed",
            getField j "durationMs", getField j "numTurns" with
      | some (.str text), some (.num c), some tok, some (.num d), some (.num n) =>
          match decodeTokenUsage tok with
          | some t => some (.result text c t d n)
          | none => none
      | _, _, _, _, _ => none
  | some (.str "error") =>
      match getField j "message", getField j "costUsd", getField j "tokensUsed",
            getField j "durationMs", getField j "numTurns" with
      | some (.str message), some (.num c), some tok, some (.num d), some (.num n) =>
          match decodeTokenUsage tok with
          | some t => some (.error message c t d n)
          | none => none
      | _, _, _, _, _ => none
  | _ => none
where
  decodeTokenUsage (j : Json) : Option TokenUsage :=
    match getField j "input", getField j "output",
          getField j "cacheRead", getField j "cacheWrite" with
    | some (.num i), some (.num o), some (.num r), some (.num w) => some ⟨i, o, r, w⟩
    | _, _, _, _ => none

/-! ## Side-channel line transport (manager.ts and local-runner.ts stderr
handlers).  Lines are modelled as lists of characters. -/

/-- The marker constant from shared/ipc.ts, the token put before every structured
line on the side channel. -/
def ipcTagChars : List Char := "@flowmate ".toList

/-- Check that the line starts with the IPC marker. -/
def hasIpcTag (line : List Char) : Bool :=
  line.take ipcTagChars.length == ipcTagChars

/-- The stderr `line` handler shared by ContainerManager.run and
LocalRunner.run: a line starting with the IPC marker is stripped and parsed
(`jparse` is the opaque trim-and-JSON.parse runtime stage); only a line that
parses and validates is delivered to `onMessage` (`some`), every other line
is logged as diagnostics and never delivered (`none`). -/
def handleStderrLine (jparse : List Char → Option Json) (line : List Char) :
    Option Json :=
  if hasIpcTag line then
    parseIpcJson (jparse (line.drop ipcTagChars.length))
  else
    none

/-! ## services/execution.ts — truncateHistory -/

/-- One entry of a conversation history (`ConversationMessage`). -/
structure ConversationMessage where
  role : String
  content : String
deriving DecidableEq, Repr

/-- JavaScript `arr.slice(-n)`: the last `n` elements, except that
`slice(-0)` is `slice(0)`, the whole array. -/
def sliceLast (h : List ConversationMessage) (n : ℕ) : List ConversationMessage :=
  if n = 0 then h else h.drop (h.length - n)

/-- The synthetic system note prepended by truncation. -/
def omittedNote (omitted : ℕ) : ConversationMessage :=
  ⟨"system", "[" ++ toString omitted ++ " earlier messages omitted for context window efficiency]"⟩

/-- Function `truncateHistory` from services/execution.ts: histories not exceeding the
limit are returned unchanged; otherwise the most recent `maxMessages` entries
are kept and a synthetic system note naming the omitted count is prepended. -/
def truncateHistory (history : List ConversationMessage) (maxMessages : ℕ) :
    List ConversationMessage :=
  if history.length ≤ maxMessages then history
  else
    omittedNote (history.length - maxMessages) :: sliceLast history maxMessages

/-! ## services/cost-tracker.ts -/

/-- Result record of `CostTracker.checkBudget`. -/
structure BudgetCheck where
  allowed : Bool
  remaining : ℚ
deriving DecidableEq, Repr

/-- JavaScript `Math.max` on two (non-NaN) numbers, written so it evaluates by kernel
reduction. -/
def jsMax (a b : ℚ) : ℚ := if a ≤ b then b else a

/-- JavaScript `Math.min` on two (non-NaN) numbers, written so it evaluates by kernel
reduction. -/
def jsMin (a b : ℚ) : ℚ := if a ≤ b then a else b

/-- Method `CostTracker.checkBudget`: `usedToday` is what `getDailyCost` returned
for today and `pendingReservations` the in-memory reservation count.
`remaining = max(0, dailyLimit - used - reserved)` with the pessimistic
reservation `pendingReservations * maxBudgetPerTask`; a new execution is
allowed only when `remaining >= maxBudgetPerTask`. -/
def checkBudget (dailyLimit maxBudgetPerTask usedToday : ℚ)
    (pendingReservations : ℤ) : BudgetCheck :=
  let reserved : ℚ := (pendingReservations : ℚ) * maxBudgetPerTask
  let remaining := jsMax 0 (dailyLimit - usedToday - reserved)
  ⟨decide (maxBudgetPerTask ≤ remaining), remaining⟩

/-- State owned by one reservation: the tracker counter as the closure sees
it, and the `released` flag captured by the release callback. -/
structure ReserveHandle where
  pending : ℤ
  released : Bool
deriving DecidableEq, Repr

/-- Method `CostTracker.reserve`: increments `pendingReservations` and hands back a
release callback whose `released` flag starts false. -/
def reserve (pending : ℤ) : ReserveHandle :=
  ⟨pending + 1, false⟩

/-- One invocation of the release callback: decrements the counter on the
first call only, later calls are no-ops. -/
def releaseOnce (h : ReserveHandle) : ReserveHandle :=
  if h.released then h else ⟨h.pending - 1, true⟩

/-- Iterated (`n` consecutive) invocations of the same release callback. -/
def releaseIter : ℕ → ReserveHandle → ReserveHandle
  | 0, h => h
  | n + 1, h => releaseIter n (releaseOnce h)

/-! ## services/execution.ts — the synchronous part of `execute`, from the
budget check up to handing the task config to the runner backend. -/

/-- Execution status column of an execution record. -/
inductive Status where
  | pending | running | completed | failed | error | timeout
deriving DecidableEq, Repr

/-- The slice of an execution record the orchestration claims touch. -/
structure ExecRecord where
  status : Status
  prompt : String
deriving DecidableEq, Repr

/-- Orchestrator-visible mutable state at launch time: the in-memory
reservation counter, the execution records in the store, and how many
workers have been handed to the runner backend. -/
structure OrchState where
  pendingReservations : ℤ
  execRecords : List ExecRecord
  launched : ℕ
deriving DecidableEq, Repr

/-- The `limits` block of the task payload. -/
structure TaskLimits where
  maxBudgetPerTask : ℚ
  maxTurnsPerTask : ℕ
  taskTimeoutMs : ℕ
deriving DecidableEq, Repr

/-- Failure raised synchronously by `execute`. -/
inductive ExecError where
  | budgetExceeded (remaining : ℚ)
deriving DecidableEq, Repr

/-- Outcome of the launch phase: the state after it ran, and either the
budget-exceeded rejection or the assembled task limits and truncated
history that reach the worker. -/
structure LaunchOutcome where
  state : OrchState
  result : Except ExecError (TaskLimits × List ConversationMessage)

/-- The synchronous prefix of `ExecutionService.execute`: check the budget
(rejecting with no state change when not allowed), reserve, load and
truncate the history, create the record in `pending`, assemble the task
limits with the per-task cap clamped to the remaining daily budget, flip
the record to `running`, and hand the worker to the backend. -/
def executeLaunch (dailyLimit capPerTask usedToday : ℚ)
    (maxHistory maxTurns timeoutMs : ℕ)
    (history : List ConversationMessage) (prompt : String)
    (st : OrchState) : LaunchOutcome :=
  let budget := checkBudget dailyLimit capPerTask usedToday st.pendingReservations
  if !budget.allowed then
    ⟨st, .error (.budgetExceeded budget.remaining)⟩
  else
    let st1 : OrchState := { st with pendingReservations := st.pendingReservations + 1 }
    let msgs := truncateHistory history maxHistory
    let st2 : OrchState := { st1 with execRecords := st1.execRecords ++ [⟨.pending, prompt⟩] }
    let limits : TaskLimits :=
      ⟨jsMin capPerTask budget.remaining, maxTurns, timeoutMs⟩
    let st3 : OrchState := { st2 with execRecords := st2.execRecords.dropLast ++ [⟨.running, prompt⟩] }
    let st4 : OrchState := { st3 with launched := st3.launched + 1 }
    ⟨st4, .ok (limits, msgs)⟩

/-! ## services/execution.ts — progress debounce -/

/-- The progress branch of the `onMessage` handler, folded over the
wall-clock arrival times (ms since epoch) of the progress messages of one
execution.  `lastProgressTime` starts at 0; a message fires the callback
exactly when `now - lastProgressTime >= 3000`, and firing updates
`lastProgressTime`; messages inside the window are dropped. -/
def debounceRun : ℤ → List ℤ → List Bool
  | _, [] => []
  | lastProgressTime, now :: rest =>
      if 3000 ≤ now - lastProgressTime then
        true :: debounceRun now rest
      else
        false :: debounceRun lastProgressTime rest

/-- Modelled from the spec wording of the debounce: the first progress
message always invokes the callback; afterwards a message invokes it
exactly when at least 3000 ms of wall-clock time passed since the last
invoked one, and messages inside the window are dropped. -/
def specDebounceAux : ℤ → List ℤ → List Bool
  | _, [] => []
  | lastFired, now :: rest =>
      if 3000 ≤ now - lastFired then
        true :: specDebounceAux now rest
      else
        false :: specDebounceAux lastFired rest

/-- Modelled from the spec wording: top level of the debounce, first
message always fires. -/
def specDebounce : List ℤ → List Bool
  | [] => []
  | now :: rest => true :: specDebounceAux now rest

/-! ## Worker backends: message/exit callback ordering (manager.ts and
local-runner.ts).  The raw runtime events of one worker are the stderr
lines (in emission order), the `exit` event of the child process (which
may race ahead of buffered output), and the `close` event, which the Node
runtime fires only after all stdio streams are drained. -/

/-- A raw runtime event of one worker process. -/
inductive RawEvent where
  | line (s : List Char)
  | procExit (code : Option ℤ) (signal : Option String)
  | streamsClosed (code : Option ℤ) (signal : Option String)
deriving Repr

/-- A callback invocation observed by the orchestrator. -/
inductive CbEvent where
  | msg (j : Json)
  | exited (code : Option ℤ) (signal : Option String)
deriving Repr

/-- Whether a raw event is a stderr line. -/
def RawEvent.isLine : RawEvent → Bool
  | .line _ => true
  | _ => false

/-- Whether a callback event is a message delivery. -/
def CbEvent.isMsg : CbEvent → Bool
  | .msg _ => true
  | _ => false

/-- The Node stream guarantee the sources rely on (see the comment in
manager.ts): `close` fires only after every buffered stderr line has been
emitted, so no `line` event follows a `streamsClosed` event. -/
def noLineAfterClose : List RawEvent → Bool
  | [] => true
  | .streamsClosed _ _ :: rest =>
      rest.all (fun e => !e.isLine) && noLineAfterClose rest
  | _ :: rest => noLineAfterClose rest

/-- ContainerManager.run event subscriptions: stderr lines go through the
IPC filter to `onMessage`; `close` invokes `onExit` (after deleting the
temp payload file); the raw `exit` event is not subscribed to. -/
def containerDispatch (jparse : List Char → Option Json) :
    RawEvent → Option CbEvent
  | .line s => (handleStderrLine jparse s).map CbEvent.msg
  | .procExit _ _ => none
  | .streamsClosed code signal => some (.exited code signal)

/-- LocalRunner.run event subscriptions: identical shape — stderr lines go
through the same IPC filter, non-IPC lines only feed the bounded diagnostic
ring buffer, and `close` (never the raw `exit` event) invokes `onExit`. -/
def localDispatch (jparse : List Char → Option Json) :
    RawEvent → Option CbEvent
  | .line s => (handleStderrLine jparse s).map CbEvent.msg
  | .procExit _ _ => none
  | .streamsClosed code signal => some (.exited code signal)

/-- The callback sequence a backend produces from a raw event sequence. -/
def callbackTrace (dispatch : RawEvent → Option CbEvent)
    (events : List RawEvent) : List CbEvent :=
  events.filterMap dispatch

/-- The ordering property claimed for callbacks: no message delivery ever
follows an exit notification. -/
def noMsgAfterExit : List CbEvent → Bool
  | [] => true
  | .exited _ _ :: rest =>
      rest.all (fun e => !e.isMsg) && noMsgAfterExit rest
  | _ :: rest => noMsgAfterExit rest

/-! ## services/execution.ts — settlement of one execution.  The handlers
registered by `execute` (the timeout timer callback, the `onMessage`
callback and the `onExit` callback) are folded over the events of one
execution; the state records the `resultReceived` flag, the persisted
status column, and the full trace of terminal-status writes. -/

/-- Handler-visible state of one in-flight execution. -/
structure SettleState where
  resultReceived : Bool
  dbStatus : Status
  /-- Every terminal-status value written to the execution record, in order. -/
  statusWrites : List Status
  /-- Kill requests issued against the runner. -/
  killRequests : ℕ
  /-- Whether the timeout timer is still pending (cleared by clearTimeout). -/
  timerPending : Bool
deriving DecidableEq, Repr

/-- State right after the record was flipped to `running` and the timer
armed. -/
def initialSettleState : SettleState :=
  ⟨false, .running, [], 0, true⟩

/-- An event that can reach the handlers of one running execution. -/
inductive ExecEvent where
  | timerFires
  | message (m : IpcMessage)
  | closeExit (code : Option ℤ) (signal : Option String)
deriving DecidableEq, Repr

/-- One handler invocation, directly from the source of `execute`.
The timer callback acts only when `resultReceived` is still false: it
issues a kill and persists `timeout` — but it neither sets
`resultReceived` nor is there anything left to clear.  The `result` and
`error` branches of `onMessage` set `resultReceived`, clear the timer and
persist `completed` resp. `failed` unconditionally.  The `onExit` handler
clears the timer and persists `error` when `resultReceived` is false. -/
def settleStep (st : SettleState) (e : ExecEvent) : SettleState :=
  match e with
  | .timerFires =>
      if st.resultReceived then { st with timerPending := false }
      else
        { st with
            timerPending := false,
            killRequests := st.killRequests + 1,
            dbStatus := .timeout,
            statusWrites := st.statusWrites ++ [.timeout] }
  | .message m =>
      match m with
      | .progress _ _ => st
      | .result _ _ _ _ _ =>
          { st with
              resultReceived := true,
              timerPending := false,
              dbStatus := .completed,
              statusWrites := st.statusWrites ++ [.completed] }
      | .error _ _ _ _ _ =>
          { st with
              resultReceived := true,
              timerPending := false,
              dbStatus := .failed,
              statusWrites := st.statusWrites ++ [.failed] }
  | .closeExit _ _ =>
      if st.resultReceived then { st with timerPending := false }
      else
        { st with
            timerPending := false,
            dbStatus := .error,
            statusWrites := st.statusWrites ++ [.error] }

/-- Folding the handlers over the events of one execution. -/
def settleRun (events : List ExecEvent) : SettleState :=
  events.foldl settleStep initialSettleState

/-! ## Theorems -/

/-- Claim C3: for every dailyLimit, perTaskCap, recorded daily cost and
reservation count, `checkBudget` returns
`remaining = max 0 (dailyLimit - usedToday - reservedCount * perTaskCap)`
and allows a new execution exactly when `perTaskCap ≤ remaining`; in
particular with dailyLimit 10, perTaskCap 3, usedToday 0 and 3 outstanding
reservations it reports `allowed = false`. -/
theorem checkBudget_formula (dailyLimit perTaskCap usedToday : ℚ)
    (reservedCount : ℤ) :
    (checkBudget dailyLimit perTaskCap usedToday reservedCount).remaining =
        max 0 (dailyLimit - usedToday - (reservedCount : ℚ) * perTaskCap)
    ∧ ((checkBudget dailyLimit perTaskCap usedToday reservedCount).allowed = true ↔
        perTaskCap ≤ (checkBudget dailyLimit perTaskCap usedToday reservedCount).remaining)
    ∧ (checkBudget 10 3 0 3).allowed = false := by
  refine ⟨?_, ?_, by norm_num [checkBudget, jsMax]⟩
  · simp [checkBudget, jsMax, max_def, mul_comm]
  · simp [checkBudget]

/-- Auxiliary: once the release closure has flipped its `released` flag,
every further invocation leaves the state untouched. -/
theorem releaseIter_after_released (n : ℕ) (q : ℤ) :
    releaseIter n ⟨q, true⟩ = ⟨q, true⟩ := by
  induction n with
  | zero => rfl
  | succ k ih => simpa [releaseIter, releaseOnce] using ih

/-- Claim C4: `reserve` increments the pending-reservation count by exactly
one, and invoking the returned release callback any number `n ≥ 1` of times
decrements it by exactly one — the first call decrements, all later calls
are no-ops, so `n` calls have the same effect as one. -/
theorem reserve_release_idempotent (p : ℤ) (n : ℕ) (hn : 1 ≤ n) :
    (reserve p).pending = p + 1
    ∧ (releaseIter n (reserve p)).pending = p
    ∧ releaseIter n (reserve p) = releaseIter 1 (reserve p) := by
  obtain ⟨m, rfl⟩ : ∃ m, n = m + 1 := ⟨n - 1, by omega⟩
  have hstep : releaseOnce (reserve p) = ⟨p, true⟩ := by
    simp [reserve, releaseOnce]
  refine ⟨rfl, ?_, ?_⟩
  · show (releaseIter m (releaseOnce (reserve p))).pending = p
    rw [hstep, releaseIter_after_released]
  · show releaseIter m (releaseOnce (reserve p)) = releaseIter 0 (releaseOnce (reserve p))
    rw [hstep, releaseIter_after_released, releaseIter]

/-- Witness for C4 at p = 5, n = 3. -/
theorem reserve_release_idempotent_witness :
    (1 ≤ 3)
    ∧ ((reserve 5).pending = 5 + 1
       ∧ (releaseIter 3 (reserve 5)).pending = 5
       ∧ releaseIter 3 (reserve 5) = releaseIter 1 (reserve 5)) :=
  ⟨by decide, reserve_release_idempotent 5 3 (by decide)⟩

/-- Claim C2, counterexample: with a 25-message history and
maxHistoryMessages = 20, the truncated history handed to the worker has 21
entries (the 20 most recent plus the prepended synthetic note), not exactly
20 as claimed. -/
theorem truncateHistory_not_exact_counterexample :
    (truncateHistory (List.replicate 25 ⟨"user", "m"⟩) 20).length = 21
    ∧ ¬ (truncateHistory (List.replicate 25 ⟨"user", "m"⟩) 20).length = 20 := by
  constructor <;> decide

/-- Claim C2 as amended: for a history longer than the configured maximum
(with a positive maximum), the truncated history has exactly
maxMessages + 1 entries — a single synthetic system message naming the
omitted count, followed by the maxMessages most recent messages — and a
history of length at most the maximum is returned unchanged. -/
theorem truncateHistory_amended (history : List ConversationMessage)
    (maxMessages : ℕ) (hpos : 1 ≤ maxMessages) :
    (maxMessages < history.length →
      truncateHistory history maxMessages =
        ConversationMessage.mk "system"
            ("[" ++ toString (history.length - maxMessages) ++
             " earlier messages omitted for context window efficiency]")
          :: history.drop (history.length - maxMessages)
      ∧ (truncateHistory history maxMessages).length = maxMessages + 1)
    ∧ (history.length ≤ maxMessages → truncateHistory history maxMessages = history) := by
  constructor
  · intro hlt
    have hne : ¬ history.length ≤ maxMessages := by omega
    have heq : truncateHistory history maxMessages =
        omittedNote (history.length - maxMessages)
          :: history.drop (history.length - maxMessages) := by
      simp [truncateHistory, hne, sliceLast]
      omega
    refine ⟨heq, ?_⟩
    rw [heq]
    simp [List.length_drop]
    omega
  · intro hle
    simp [truncateHistory, hle]

/-- Witness for C2 amended at the 25-message, maxMessages = 20 scenario. -/
theorem truncateHistory_amended_witness :
    (1 ≤ 20)
    ∧ ((20 < (List.replicate 25 (ConversationMessage.mk "user" "m")).length →
        truncateHistory (List.replicate 25 ⟨"user", "m"⟩) 20 =
          ConversationMessage.mk "system"
              ("[" ++ toString ((List.replicate 25 (ConversationMessage.mk "user" "m")).length - 20) ++
               " earlier messages omitted for context window efficiency]")
            :: (List.replicate 25 (ConversationMessage.mk "user" "m")).drop
                ((List.replicate 25 (ConversationMessage.mk "user" "m")).length - 20)
        ∧ (truncateHistory (List.replicate 25 ⟨"user", "m"⟩) 20).length = 20 + 1)
       ∧ ((List.replicate 25 (ConversationMessage.mk "user" "m")).length ≤ 20 →
          truncateHistory (List.replicate 25 ⟨"user", "m"⟩) 20 =
            List.replicate 25 (ConversationMessage.mk "user" "m"))) :=
  ⟨by decide, truncateHistory_amended (List.replicate 25 ⟨"user", "m"⟩) 20 (by decide)⟩

/-- Claim C10: structural validation of a result message checks only that
`tokensUsed` is a truthy object and never looks inside it — for every field
list (in particular the empty object), the message passes validation and
`parseIpcLine` accepts it. -/
theorem parseIpc_accepts_empty_tokensUsed (fields : List (String × Json)) :
    isValidIpcMessage
        (Json.obj [("type", .str "result"), ("text", .str "ok"),
                   ("costUsd", .num 0), ("tokensUsed", .obj fields),
                   ("durationMs", .num 0), ("numTurns", .num 1)]) = true
    ∧ parseIpcJson
        (some (Json.obj [("type", .str "result"), ("text", .str "ok"),
                         ("costUsd", .num 0), ("tokensUsed", .obj []),
                         ("durationMs", .num 0), ("numTurns", .num 1)])) =
      some (Json.obj [("type", .str "result"), ("text", .str "ok"),
                      ("costUsd", .num 0), ("tokensUsed", .obj []),
                      ("durationMs", .num 0), ("numTurns", .num 1)]) := by
  constructor <;> rfl

/-- Claim C5: serializing any structured IPC message and parsing the line
with the marker stripped yields the very value that was serialized, which
decodes back to a message equal to the original (deep equality); and a
side-channel line that does not start with the fixed marker is never
delivered to the message handler, whatever the runtime JSON parser does. -/
theorem ipc_round_trip (m : IpcMessage) (line : List Char)
    (jparse : List Char → Option Json)
    (hline : hasIpcTag line = false) :
    parseIpcJson (some (serializeIpc m)) = some (serializeIpc m)
    ∧ decodeIpc (serializeIpc m) = some m
    ∧ handleStderrLine jparse line = none := by
  refine ⟨?_, ?_, ?_⟩
  · cases m <;> rfl
  · cases m <;> rfl
  · simp [handleStderrLine, hline]

/-- Witness for C5: a progress message and the plain diagnostic line
"hello". -/
theorem ipc_round_trip_witness :
    hasIpcTag "hello".toList = false
    ∧ (parseIpcJson (some (serializeIpc (.progress "hi" "t"))) =
          some (serializeIpc (.progress "hi" "t"))
       ∧ decodeIpc (serializeIpc (.progress "hi" "t")) = some (.progress "hi" "t")
       ∧ handleStderrLine (fun _ => none) "hello".toList = none) :=
  ⟨by decide, ipc_round_trip (.progress "hi" "t") "hello".toList (fun _ => none) (by decide)⟩

/-- Claim C6: when the budget check reports not allowed, `execute` fails
synchronously with the budget-exceeded error and leaves the orchestrator
state exactly as it was — no execution record created, no reservation
taken, no worker launched. -/
theorem execute_budget_rejection (dailyLimit capPerTask usedToday : ℚ)
    (maxHistory maxTurns timeoutMs : ℕ)
    (history : List ConversationMessage) (prompt : String) (st : OrchState)
    (hnot : (checkBudget dailyLimit capPerTask usedToday st.pendingReservations).allowed = false) :
    (executeLaunch dailyLimit capPerTask usedToday maxHistory maxTurns timeoutMs
        history prompt st).state = st
    ∧ (executeLaunch dailyLimit capPerTask usedToday maxHistory maxTurns timeoutMs
        history prompt st).result =
      .error (.budgetExceeded
        (checkBudget dailyLimit capPerTask usedToday st.pendingReservations).remaining) := by
  unfold executeLaunch
  simp [hnot]

/-- Witness for C6: dailyLimit 10, perTaskCap 3, nothing spent, 3 pending
reservations. -/
theorem execute_budget_rejection_witness :
    (checkBudget 10 3 0 (OrchState.mk 3 [] 0).pendingReservations).allowed = false
    ∧ ((executeLaunch 10 3 0 20 10 1000 [] "p" ⟨3, [], 0⟩).state = ⟨3, [], 0⟩
       ∧ (executeLaunch 10 3 0 20 10 1000 [] "p" ⟨3, [], 0⟩).result =
         .error (.budgetExceeded (checkBudget 10 3 0 (OrchState.mk 3 [] 0).pendingReservations).remaining)) :=
  ⟨by norm_num [checkBudget, jsMax],
   execute_budget_rejection 10 3 0 20 10 1000 [] "p" ⟨3, [], 0⟩ (by norm_num [checkBudget, jsMax])⟩

/-- Claim C7: when the budget check allows the execution, the per-task
budget limit placed in the task payload is the minimum of the configured
per-task cap and the remaining daily budget computed by that budget check,
and so never exceeds the remaining daily budget. -/
theorem execute_cap_clamped (dailyLimit capPerTask usedToday : ℚ)
    (maxHistory maxTurns timeoutMs : ℕ)
    (history : List ConversationMessage) (prompt : String) (st : OrchState)
    (hok : (checkBudget dailyLimit capPerTask usedToday st.pendingReservations).allowed = true) :
    (executeLaunch dailyLimit capPerTask usedToday maxHistory maxTurns timeoutMs
        history prompt st).result =
      .ok (⟨min capPerTask
              (checkBudget dailyLimit capPerTask usedToday st.pendingReservations).remaining,
            maxTurns, timeoutMs⟩,
           truncateHistory history maxHistory)
    ∧ min capPerTask
        (checkBudget dailyLimit capPerTask usedToday st.pendingReservations).remaining
      ≤ (checkBudget dailyLimit capPerTask usedToday st.pendingReservations).remaining := by
  constructor
  · unfold executeLaunch
    simp [hok, jsMin, min_def]
  · exact min_le_right _ _

/-- Witness for C7: dailyLimit 10, perTaskCap 3, nothing spent, no pending
reservations. -/
theorem execute_cap_clamped_witness :
    (checkBudget 10 3 0 (OrchState.mk 0 [] 0).pendingReservations).allowed = true
    ∧ ((executeLaunch 10 3 0 20 10 1000 [] "p" ⟨0, [], 0⟩).result =
        .ok (⟨min 3 (checkBudget 10 3 0 (OrchState.mk 0 [] 0).pendingReservations).remaining,
              10, 1000⟩,
             truncateHistory [] 20)
       ∧ min 3 (checkBudget 10 3 0 (OrchState.mk 0 [] 0).pendingReservations).remaining
           ≤ (checkBudget 10 3 0 (OrchState.mk 0 [] 0).pendingReservations).remaining) :=
  ⟨by norm_num [checkBudget, jsMax],
   execute_cap_clamped 10 3 0 20 10 1000 [] "p" ⟨0, [], 0⟩ (by norm_num [checkBudget, jsMax])⟩

/-- Auxiliary: below the top level, the source debounce fold and the
spec-worded debounce agree for every value of the last-fired clock. -/
theorem debounceRun_eq_specAux (times : List ℤ) :
    ∀ lastFired, debounceRun lastFired times = specDebounceAux lastFired times := by
  induction times with
  | nil => intro lastFired; rfl
  | cons now rest ih =>
      intro lastFired
      simp only [debounceRun, specDebounceAux]
      by_cases h : (3000 : ℤ) ≤ now - lastFired
      · simp [h, ih]
      · simp [h, ih]

/-- Claim C8: over any sequence of wall-clock arrival times of progress
messages (clock readings in ms since epoch, hence at least 3000 at any
realistic run time), the handler invokes the progress callback for a
message exactly when at least 3000 ms have passed since the last invoked
one, the first message always firing; each message gets an immediate
fire-or-drop decision, so dropped messages are never delivered later. -/
theorem progress_debounce (times : List ℤ)
    (hclock : ∀ t ∈ times, (3000 : ℤ) ≤ t) :
    debounceRun 0 times = specDebounce times := by
  cases times with
  | nil => rfl
  | cons t rest =>
      have h0 : (3000 : ℤ) ≤ t - 0 := by
        simpa using hclock t (List.mem_cons_self t rest)
      simp only [debounceRun, specDebounce, if_pos h0]
      exact congrArg (true :: ·) (debounceRun_eq_specAux rest t)

/-- Witness for C8 at arrival times 3000, 4000 and 6000 (fire, drop,
fire). -/
theorem progress_debounce_witness :
    (∀ t ∈ ([3000, 4000, 6000] : List ℤ), (3000 : ℤ) ≤ t)
    ∧ debounceRun 0 [3000, 4000, 6000] = specDebounce [3000, 4000, 6000] :=
  ⟨by decide, progress_debounce [3000, 4000, 6000] (by decide)⟩

/-- Auxiliary: the two dispatch tables are the same function. -/
theorem localDispatch_eq_containerDispatch (jparse : List Char → Option Json) :
    localDispatch jparse = containerDispatch jparse := by
  funext e
  cases e <;> rfl

/-- Auxiliary: raw events that are not stderr lines never dispatch to a
message callback, so a line-free suffix yields a message-free callback
suffix. -/
theorem filterMap_no_msg_of_no_line (jparse : List Char → Option Json)
    (l : List RawEvent) (h : l.all (fun e => !e.isLine) = true) :
    (l.filterMap (containerDispatch jparse)).all (fun e => !e.isMsg) = true := by
  induction l with
  | nil => rfl
  | cons e rest ih =>
      simp only [List.all_cons, Bool.and_eq_true] at h
      obtain ⟨he, hrest⟩ := h
      cases e with
      | line s => simp [RawEvent.isLine] at he
      | procExit c sg =>
          simpa [List.filterMap_cons, containerDispatch] using ih hrest
      | streamsClosed c sg =>
          have hr := ih hrest
          simp only [List.filterMap_cons, containerDispatch, List.all_cons,
            CbEvent.isMsg, Bool.not_false, Bool.true_and]
          exact hr

/-- Auxiliary: over any raw event sequence in which no stderr line follows
the stream-drained `close` event, the callback sequence of the container
backend never delivers a message after the exit notification. -/
theorem callbackTrace_no_msg_after_exit (jparse : List Char → Option Json)
    (events : List RawEvent) (hvalid : noLineAfterClose events = true) :
    noMsgAfterExit (callbackTrace (containerDispatch jparse) events) = true := by
  induction events with
  | nil => rfl
  | cons e rest ih =>
      cases e with
      | line s =>
          have hrest : noLineAfterClose rest = true := hvalid
          cases hparse : handleStderrLine jparse s with
          | none =>
              simpa [callbackTrace, List.filterMap_cons, containerDispatch, hparse]
                using ih hrest
          | some j =>
              simp only [callbackTrace, List.filterMap_cons, containerDispatch,
                hparse, Option.map_some]
              simpa [noMsgAfterExit, callbackTrace] using ih hrest
      | procExit c sg =>
          have hrest : noLineAfterClose rest = true := hvalid
          simpa [callbackTrace, List.filterMap_cons, containerDispatch]
            using ih hrest
      | streamsClosed c sg =>
          simp only [noLineAfterClose, Bool.and_eq_true] at hvalid
          obtain ⟨hall, hrest⟩ := hvalid
          simp only [callbackTrace, List.filterMap_cons, containerDispatch,
            noMsgAfterExit, Bool.and_eq_true]
          exact ⟨filterMap_no_msg_of_no_line jparse rest hall, ih hrest⟩

/-- Claim C9: for both worker backends, over any raw event sequence obeying
the Node stream guarantee that `close` fires only after every buffered
stderr line was emitted, the exit notification callback fires strictly
after the last message callback — no structured message is ever delivered
to the handler after `onExit`. -/
theorem exit_after_all_messages (jparse : List Char → Option Json)
    (events : List RawEvent) (hvalid : noLineAfterClose events = true) :
    noMsgAfterExit (callbackTrace (containerDispatch jparse) events) = true
    ∧ noMsgAfterExit (callbackTrace (localDispatch jparse) events) = true := by
  refine ⟨callbackTrace_no_msg_after_exit jparse events hvalid, ?_⟩
  rw [localDispatch_eq_containerDispatch]
  exact callbackTrace_no_msg_after_exit jparse events hvalid

/-- Witness for C9: one stderr line followed by the drained-stream close
event, under a runtime JSON stage that parses nothing. -/
theorem exit_after_all_messages_witness :
    noLineAfterClose [RawEvent.line "x".toList,
                      RawEvent.streamsClosed (some 0) none] = true
    ∧ (noMsgAfterExit (callbackTrace (containerDispatch (fun _ => none))
          [RawEvent.line "x".toList, RawEvent.streamsClosed (some 0) none]) = true
       ∧ noMsgAfterExit (callbackTrace (localDispatch (fun _ => none))
          [RawEvent.line "x".toList, RawEvent.streamsClosed (some 0) none]) = true) :=
  ⟨by decide,
   exit_after_all_messages (fun _ => none)
     [RawEvent.line "x".toList, RawEvent.streamsClosed (some 0) none] (by decide)⟩

/-- Events of the C1 failing run: the timeout timer fires first (settling
the execution as `timeout`), then the late result IPC message of the
still-draining worker arrives. -/
def lateResultEvents : List ExecEvent :=
  [.timerFires, .message (.result "late" 0 ⟨0, 0, 0, 0⟩ 0 1)]

/-- Claim C1, evaluated at the failing input: after the timeout has
settled the execution, a late-arriving result message is not ignored — the
handlers write a terminal status twice, and the persisted status ends up
`completed`, overwriting the `timeout` settlement.  The spec requires the
terminal status to be persisted at most once with settlement final, so the
code contradicts the claim here. -/
theorem settlement_overwritten_after_timeout :
    (settleRun lateResultEvents).statusWrites = [Status.timeout, Status.completed]
    ∧ (settleRun lateResultEvents).dbStatus = Status.completed
    ∧ ¬ (settleRun lateResultEvents).statusWrites = [Status.timeout] := by
  refine ⟨rfl, rfl, by decide⟩

end Flowmate
